import Mathlib

/-
Verification of the hunter-rs pipeline (src/main.rs): a shallow embedding of
the CSV-in / hunter.io-lookup / flatten / CSV-out pipeline, with theorems
about the flattening transform, the writer, and the driver's error handling.

JSON response bodies are modelled by an explicit `Json` value type; the
serde-derived decoders for `Hunter`, `Data`, `Email`, `Meta` and `Source`
are translated field by field (a missing or `null` optional field decodes to
`none`; a missing required field is an error).  JSON numbers are modelled as
integers, which covers every numeric field of the schema (all are `usize`).
-/

namespace HunterSpec

inductive Json where
  | null : Json
  | bool : Bool → Json
  | num : Int → Json
  | str : String → Json
  | arr : List Json → Json
  | obj : List (String × Json) → Json

/-- Key lookup in a JSON object (first occurrence wins). -/
def jLookup : List (String × Json) → String → Option Json
  | [], _ => none
  | (k, v) :: rest, key => if k = key then some v else jLookup rest key

/-- serde: a required `String` field. -/
def decodeString (l : List (String × Json)) (key : String) : Except String String :=
  match jLookup l key with
  | some (Json.str s) => Except.ok s
  | some _ => Except.error ("invalid type: field " ++ key)
  | none => Except.error ("missing field " ++ key)

/-- serde: a required `bool` field. -/
def decodeBool (l : List (String × Json)) (key : String) : Except String Bool :=
  match jLookup l key with
  | some (Json.bool b) => Except.ok b
  | some _ => Except.error ("invalid type: field " ++ key)
  | none => Except.error ("missing field " ++ key)

/-- serde: a required `usize` field (nonnegative integer). -/
def decodeUsize (l : List (String × Json)) (key : String) : Except String Nat :=
  match jLookup l key with
  | some (Json.num n) =>
      if n < 0 then Except.error ("invalid value: field " ++ key)
      else Except.ok n.toNat
  | some _ => Except.error ("invalid type: field " ++ key)
  | none => Except.error ("missing field " ++ key)

/-- serde: an `Option<String>` field — absent or `null` decodes to `none`. -/
def decodeOptString (l : List (String × Json)) (key : String) :
    Except String (Option String) :=
  match jLookup l key with
  | none => Except.ok none
  | some Json.null => Except.ok none
  | some (Json.str s) => Except.ok (some s)
  | some _ => Except.error ("invalid type: field " ++ key)

/-- Rust `struct Domain` (src/main.rs lines 22-26): one input CSV record. -/
structure Domain where
  name : String
  domain : String
deriving DecidableEq

/-- Rust `struct Source` (src/main.rs lines 70-77). -/
structure Source where
  domain : String
  uri : String
  extracted_on : String
  last_seen_on : String
  still_on_page : Bool
deriving DecidableEq

/-- Rust `struct Email` (src/main.rs lines 54-68). -/
structure Email where
  value : String
  type : String
  confidence : Nat
  sources : List Source
  first_name : Option String
  last_name : Option String
  position : Option String
  seniority : Option String
  department : Option String
  linkedin : Option String
  twitter : Option String
  phone_number : Option String
deriving DecidableEq

/-- Rust `struct Data` (src/main.rs lines 41-52): the LookupResult of the spec. -/
structure Data where
  domain : String
  disposable : Bool
  webmail : Bool
  accept_all : Bool
  pattern : Option String
  organization : Option String
  country : Option String
  state : Option String
  emails : List Email
deriving DecidableEq

/-- Rust `struct Meta` (src/main.rs lines 34-39). -/
structure Meta where
  results : Nat
  limit : Nat
  offset : Nat
deriving DecidableEq

/-- Rust `struct Hunter` (src/main.rs lines 28-32): the whole response body. -/
structure Hunter where
  data : Data
  meta : Meta
deriving DecidableEq

/-- Rust `struct Flattened` (src/main.rs lines 79-100): one output row. -/
structure Flattened where
  domain : String
  disposable : Bool
  webmail : Bool
  accept_all : Bool
  pattern : Option String
  organization : Option String
  country : Option String
  state : Option String
  value : String
  type : String
  confidence : Nat
  first_name : Option String
  last_name : Option String
  position : Option String
  seniority : Option String
  department : Option String
  linkedin : Option String
  twitter : Option String
  phone_number : Option String
deriving DecidableEq

/-- serde `Deserialize` for `Source`: fields decoded in declaration order,
first failure wins. -/
def Source.fromJson : Json → Except String Source
  | Json.obj l => do
    let domain ← decodeString l "domain"
    let uri ← decodeString l "uri"
    let extracted_on ← decodeString l "extracted_on"
    let last_seen_on ← decodeString l "last_seen_on"
    let still_on_page ← decodeBool l "still_on_page"
    pure ⟨domain, uri, extracted_on, last_seen_on, still_on_page⟩
  | _ => Except.error "invalid source"

/-- serde: the required `Vec<Source>` field `sources`. -/
def decodeSources (l : List (String × Json)) : Except String (List Source) :=
  match jLookup l "sources" with
  | some (Json.arr xs) => xs.mapM Source.fromJson
  | some _ => Except.error "invalid type: field sources"
  | none => Except.error "missing field sources"

/-- serde `Deserialize` for `Email` (field `r#type` is named `type` here). -/
def Email.fromJson : Json → Except String Email
  | Json.obj l => do
    let value ← decodeString l "value"
    let type ← decodeString l "type"
    let confidence ← decodeUsize l "confidence"
    let sources ← decodeSources l
    let first_name ← decodeOptString l "first_name"
    let last_name ← decodeOptString l "last_name"
    let position ← decodeOptString l "position"
    let seniority ← decodeOptString l "seniority"
    let department ← decodeOptString l "department"
    let linkedin ← decodeOptString l "linkedin"
    let twitter ← decodeOptString l "twitter"
    let phone_number ← decodeOptString l "phone_number"
    pure ⟨value, type, confidence, sources, first_name, last_name,
      position, seniority, department, linkedin, twitter, phone_number⟩
  | _ => Except.error "invalid email entry"

/-- serde: the required `Vec<Email>` field `emails`. -/
def decodeEmails (l : List (String × Json)) : Except String (List Email) :=
  match jLookup l "emails" with
  | some (Json.arr xs) => xs.mapM Email.fromJson
  | some _ => Except.error "invalid type: field emails"
  | none => Except.error "missing field emails"

/-- serde `Deserialize` for `Data`. -/
def Data.fromJson : Json → Except String Data
  | Json.obj l => do
    let domain ← decodeString l "domain"
    let disposable ← decodeBool l "disposable"
    let webmail ← decodeBool l "webmail"
    let accept_all ← decodeBool l "accept_all"
    let pattern ← decodeOptString l "pattern"
    let organization ← decodeOptString l "organization"
    let country ← decodeOptString l "country"
    let state ← decodeOptString l "state"
    let emails ← decodeEmails l
    pure ⟨domain, disposable, webmail, accept_all, pattern,
      organization, country, state, emails⟩
  | _ => Except.error "invalid data"

/-- serde `Deserialize` for `Meta`. -/
def Meta.fromJson : Json → Except String Meta
  | Json.obj l => do
    let results ← decodeUsize l "results"
    let limit ← decodeUsize l "limit"
    let offset ← decodeUsize l "offset"
    pure ⟨results, limit, offset⟩
  | _ => Except.error "invalid meta"

/-- serde `Deserialize` for `Hunter`, the shape `r.json::<Hunter>()` expects. -/
def Hunter.fromJson : Json → Except String Hunter
  | Json.obj l =>
    match jLookup l "data", jLookup l "meta" with
    | some dj, some mj => do
      let data ← Data.fromJson dj
      let meta ← Meta.fromJson mj
      pure ⟨data, meta⟩
    | _, _ => Except.error "invalid response"
  | _ => Except.error "invalid response"

/-- The body of the per-email loop (src/main.rs lines 145-166): one
`Flattened` row built from the domain-level fields and one `Email`. -/
def flattenRow (data : Data) (email : Email) : Flattened :=
  { domain := data.domain
    disposable := data.disposable
    webmail := data.webmail
    accept_all := data.accept_all
    pattern := data.pattern
    organization := data.organization
    country := data.country
    state := data.state
    value := email.value
    type := email.type
    confidence := email.confidence
    first_name := email.first_name
    last_name := email.last_name
    position := email.position
    seniority := email.seniority
    department := email.department
    linkedin := email.linkedin
    twitter := email.twitter
    phone_number := email.phone_number }

/-- The flattening transform: the loop `for email in hunter.data.emails`
(src/main.rs lines 145-168) emits one row per email, in order. -/
def flatten (data : Data) : List Flattened :=
  data.emails.map (flattenRow data)

/-- The header the csv crate derives from `Flattened`'s field names, in
declaration order (src/main.rs lines 79-100). -/
def flattenedHeader : List String :=
  ["domain", "disposable", "webmail", "accept_all", "pattern", "organization",
   "country", "state", "value", "type", "confidence", "first_name", "last_name",
   "position", "seniority", "department", "linkedin", "twitter", "phone_number"]

/-- csv cell for a `bool` field. -/
def boolCell : Bool → String
  | true => "true"
  | false => "false"

/-- csv cell for an `Option<String>` field: `None` renders as an empty cell. -/
def optCell : Option String → String
  | none => ""
  | some s => s

/-- The csv record serialized from one `Flattened` row, cell by cell in field
declaration order. -/
def serializeFlattened (f : Flattened) : List String :=
  [f.domain, boolCell f.disposable, boolCell f.webmail, boolCell f.accept_all,
   optCell f.pattern, optCell f.organization, optCell f.country, optCell f.state,
   f.value, f.type, toString f.confidence,
   optCell f.first_name, optCell f.last_name, optCell f.position,
   optCell f.seniority, optCell f.department, optCell f.linkedin,
   optCell f.twitter, optCell f.phone_number]

/-- State of the csv writer built with `has_headers(true)` (src/main.rs lines
123-125): the lines written so far, and whether the header has been emitted.
The header is written lazily, by the first `serialize` call. -/
structure Writer where
  headerWritten : Bool
  lines : List (List String)
deriving DecidableEq

def Writer.init : Writer := ⟨false, []⟩

/-- The call `wtr.serialize(flattened)` (src/main.rs line 167): emits the header first
if no record has been written yet, then the record. -/
def Writer.serialize (w : Writer) (f : Flattened) : Writer :=
  if w.headerWritten then
    ⟨true, w.lines ++ [serializeFlattened f]⟩
  else
    ⟨true, w.lines ++ [flattenedHeader, serializeFlattened f]⟩

/-- Errors that abort the run, each remembering the input row it arose at. -/
inductive RunError where
  | malformedInput (row : Nat) (msg : String)
  | transport (row : Nat)
  | schema (row : Nat)
deriving DecidableEq

def RunError.rowIndex : RunError → Nat
  | malformedInput i _ => i
  | transport i => i
  | schema i => i

/-- Header-directed cell lookup, as the csv crate's serde support resolves a
struct field against the header row. -/
def lookupCell : List String → List String → String → Option String
  | [], _, _ => none
  | _, [], _ => none
  | h :: hs, c :: cs, key => if h = key then some c else lookupCell hs cs key

/-- One step of `rdr.deserialize::<Domain>()` (src/main.rs lines 127-128):
a record whose length differs from the header's is an error, as is a record
lacking a `name` or `domain` column; the error identifies the row. -/
def parseDomainAt (header row : List String) (idx : Nat) : Except RunError Domain :=
  if row.length ≠ header.length then
    Except.error (RunError.malformedInput idx "wrong column count")
  else
    match lookupCell header row "name", lookupCell header row "domain" with
    | some name, some domain => Except.ok ⟨name, domain⟩
    | none, _ => Except.error (RunError.malformedInput idx "missing field name")
    | some _, none => Except.error (RunError.malformedInput idx "missing field domain")

/-- The environment of one lookup: what `reqwest::get(...)` followed by
`.json::<Hunter>()` can observe — a transport failure, a body that is not
JSON at all, or a JSON body (which may still fail schema decode). -/
inductive Response where
  | transportError : Response
  | malformedBody : Response
  | body : Json → Response

/-- The combined outcome of `reqwest::get` + `r.json::<Hunter>()` for one
record: both failure arms of the source are fatal and indistinguishable in
effect (src/main.rs lines 133-179). -/
def decodeOf : Response → Except String Hunter
  | Response.transportError => Except.error "transport error"
  | Response.malformedBody => Except.error "error decoding response body"
  | Response.body j => Hunter.fromJson j

/-- The `for result in rdr.deserialize()` loop (src/main.rs lines 127-180),
with the network abstracted as a map from record index to `Response`.
Returns the exit code, the lines of the output file, and the error (if any)
that ended the run. -/
def driverLoop (resp : Nat → Response) (header : List String) :
    List (List String) → Nat → Writer → Nat × List (List String) × Option RunError
  | [], _, w => (0, w.lines, none)
  | row :: rest, i, w =>
    match parseDomainAt header row i with
    | Except.error e => (1, w.lines, some e)
    | Except.ok _domain =>
      match resp i with
      | Response.transportError => (1, w.lines, some (RunError.transport i))
      | Response.malformedBody => (1, w.lines, some (RunError.schema i))
      | Response.body j =>
        match Hunter.fromJson j with
        | Except.error _m => (1, w.lines, some (RunError.schema i))
        | Except.ok hunter =>
          driverLoop resp header rest (i + 1)
            ((flatten hunter.data).foldl Writer.serialize w)

/-- An `OsString` value as far as `get_api_key` can distinguish it: either
valid UTF-8 text or not. -/
inductive OsVal where
  | utf8 : String → OsVal
  | nonUtf8 : OsVal
deriving DecidableEq

/-- Rust `OsStr::to_str`: `Some` exactly when the value is valid UTF-8. -/
def OsVal.to_str : OsVal → Option String
  | OsVal.utf8 s => some s
  | OsVal.nonUtf8 => none

/-- The three `eprintln!` lines of the `None` arm of `get_api_key`
(src/main.rs lines 108-110). -/
def usageLines : List String :=
  ["Please set KEY (your hunter.io api key).",
   "For example:",
   "  KEY=foo cargo run --release -- input.csv output.csv"]

/-- How `get_api_key` can end (src/main.rs lines 102-114). -/
inductive KeyResult where
  | ok : String → KeyResult
  | panicked : KeyResult
  | exitedUsage : List String → KeyResult
deriving DecidableEq

/-- Function `get_api_key` (src/main.rs lines 102-114): `env::var_os("KEY")` is the
argument; `val.to_str().unwrap()` panics on a non-UTF-8 value; an unset
variable prints the usage hint and exits 1. -/
def get_api_key : Option OsVal → KeyResult
  | some val =>
    match OsVal.to_str val with
    | some s => KeyResult.ok s
    | none => KeyResult.panicked
  | none => KeyResult.exitedUsage usageLines

/-- The observable outcome of a whole run: a panic, or an exit carrying the
exit code, whether the input and output files were ever opened, the final
content of the output file, and the run-ending error if any. -/
inductive MainOutcome where
  | panicked : MainOutcome
  | exited : Nat → Bool → Bool → List (List String) → Option RunError → MainOutcome
deriving DecidableEq

/-- Function `main` (src/main.rs lines 117-183): `get_api_key` runs first, before the
input and output files are opened; then the driver loop; then flush. -/
def mainRun (key : Option OsVal) (header : List String)
    (rows : List (List String)) (resp : Nat → Response) : MainOutcome :=
  match get_api_key key with
  | KeyResult.panicked => MainOutcome.panicked
  | KeyResult.exitedUsage _ => MainOutcome.exited 1 false false [] none
  | KeyResult.ok _api_key =>
    match driverLoop resp header rows 0 Writer.init with
    | (code, out, err) => MainOutcome.exited code true true out err

/-- Write the rows of one lookup result: the inner loop's effect on the
writer. -/
def writeData (w : Writer) (data : Data) : Writer :=
  (flatten data).foldl Writer.serialize w

/-- Write the rows of a sequence of lookup results. -/
def writeDatas (w : Writer) (ds : List Data) : Writer :=
  ds.foldl writeData w

/-- The lookup results seen by records `start, start+1, ...` of a run whose
responses decode via `hs`. -/
def datasOf (hs : Nat → Hunter) (start n : Nat) : List Data :=
  (List.range n).map (fun j => (hs (start + j)).data)

/-- Whether an `Except` computation succeeded. -/
def exOk {ε α : Type} : Except ε α → Bool
  | Except.ok _ => true
  | Except.error _ => false

/-- Writing a sequence of rows. -/
def writeRows (w : Writer) (fs : List Flattened) : Writer :=
  fs.foldl Writer.serialize w

/-- A concrete email entry (spec §8, scenario one). -/
def sampleEmail : Email :=
  ⟨"jane@acme.com", "personal", 90, [], some "Jane", some "Doe",
   none, none, none, none, none, none⟩

/-- A concrete lookup result with one email. -/
def sampleData : Data :=
  ⟨"acme.com", false, false, true, none, some "Acme Inc", some "US", some "CA",
   [sampleEmail]⟩

def sampleMeta : Meta := ⟨0, 100, 0⟩

/-- JSON of an email entry carrying only the required fields. -/
def bareEmailFields : List (String × Json) :=
  [("value", Json.str "info@acme.com"), ("type", Json.str "generic"),
   ("confidence", Json.num 80), ("sources", Json.arr [])]

/-- JSON of a lookup result carrying only the required fields. -/
def bareDataFields : List (String × Json) :=
  [("domain", Json.str "acme.com"), ("disposable", Json.bool false),
   ("webmail", Json.bool false), ("accept_all", Json.bool true),
   ("emails", Json.arr [])]

/-- A full response body whose lookup result has no emails. -/
def emptyHunterJson : Json :=
  Json.obj
    [("data", Json.obj bareDataFields),
     ("meta", Json.obj
       [("results", Json.num 0), ("limit", Json.num 100), ("offset", Json.num 0)])]

/-- The `Email` that `bareEmailFields` decodes to: every optional field absent. -/
def bareEmail : Email :=
  ⟨"info@acme.com", "generic", 80, [], none, none, none, none, none, none, none, none⟩

/-- The `Data` that `bareDataFields` decodes to: every optional field absent. -/
def bareData : Data :=
  ⟨"acme.com", false, false, true, none, none, none, none, []⟩

/-- The `Hunter` that `emptyHunterJson` decodes to. -/
def bareHunter : Hunter := ⟨bareData, sampleMeta⟩

theorem exOk_iff {ε α : Type} (x : Except ε α) :
    exOk x = true ↔ ∃ a, x = Except.ok a := by
  cases x <;> simp [exOk]

theorem exceptBind_ok {ε α β : Type} {x : Except ε α} {f : α → Except ε β} {b : β}
    (h : (x >>= f) = Except.ok b) : ∃ a, x = Except.ok a ∧ f a = Except.ok b := by
  cases x with
  | error m => simp [Bind.bind, Except.bind] at h
  | ok a => exact ⟨a, rfl, by simpa [Bind.bind, Except.bind] using h⟩

/-- Inversion of a successful `Email` decode: every field of the result is
what its field decoder produced. -/
theorem emailFromJson_obj_ok (l : List (String × Json)) (e : Email)
    (he : Email.fromJson (Json.obj l) = Except.ok e) :
    decodeString l "value" = Except.ok e.value ∧
    decodeString l "type" = Except.ok e.type ∧
    decodeUsize l "confidence" = Except.ok e.confidence ∧
    decodeSources l = Except.ok e.sources ∧
    decodeOptString l "first_name" = Except.ok e.first_name ∧
    decodeOptString l "last_name" = Except.ok e.last_name ∧
    decodeOptString l "position" = Except.ok e.position ∧
    decodeOptString l "seniority" = Except.ok e.seniority ∧
    decodeOptString l "department" = Except.ok e.department ∧
    decodeOptString l "linkedin" = Except.ok e.linkedin ∧
    decodeOptString l "twitter" = Except.ok e.twitter ∧
    decodeOptString l "phone_number" = Except.ok e.phone_number := by
  unfold Email.fromJson at he
  obtain ⟨value, h1, he⟩ := exceptBind_ok he
  obtain ⟨type, h2, he⟩ := exceptBind_ok he
  obtain ⟨confidence, h3, he⟩ := exceptBind_ok he
  obtain ⟨sources, h4, he⟩ := exceptBind_ok he
  obtain ⟨first_name, h5, he⟩ := exceptBind_ok he
  obtain ⟨last_name, h6, he⟩ := exceptBind_ok he
  obtain ⟨position, h7, he⟩ := exceptBind_ok he
  obtain ⟨seniority, h8, he⟩ := exceptBind_ok he
  obtain ⟨department, h9, he⟩ := exceptBind_ok he
  obtain ⟨linkedin, h10, he⟩ := exceptBind_ok he
  obtain ⟨twitter, h11, he⟩ := exceptBind_ok he
  obtain ⟨phone_number, h12, he⟩ := exceptBind_ok he
  simp [pure, Except.pure] at he
  subst he
  exact ⟨h1, h2, h3, h4, h5, h6, h7, h8, h9, h10, h11, h12⟩

/-- Inversion of a successful `Data` decode: every field of the result is
what its field decoder produced. -/
theorem dataFromJson_obj_ok (l : List (String × Json)) (d : Data)
    (hd : Data.fromJson (Json.obj l) = Except.ok d) :
    decodeString l "domain" = Except.ok d.domain ∧
    decodeBool l "disposable" = Except.ok d.disposable ∧
    decodeBool l "webmail" = Except.ok d.webmail ∧
    decodeBool l "accept_all" = Except.ok d.accept_all ∧
    decodeOptString l "pattern" = Except.ok d.pattern ∧
    decodeOptString l "organization" = Except.ok d.organization ∧
    decodeOptString l "country" = Except.ok d.country ∧
    decodeOptString l "state" = Except.ok d.state ∧
    decodeEmails l = Except.ok d.emails := by
  unfold Data.fromJson at hd
  obtain ⟨domain, h1, hd⟩ := exceptBind_ok hd
  obtain ⟨disposable, h2, hd⟩ := exceptBind_ok hd
  obtain ⟨webmail, h3, hd⟩ := exceptBind_ok hd
  obtain ⟨accept_all, h4, hd⟩ := exceptBind_ok hd
  obtain ⟨pattern, h5, hd⟩ := exceptBind_ok hd
  obtain ⟨organization, h6, hd⟩ := exceptBind_ok hd
  obtain ⟨country, h7, hd⟩ := exceptBind_ok hd
  obtain ⟨state, h8, hd⟩ := exceptBind_ok hd
  obtain ⟨emails, h9, hd⟩ := exceptBind_ok hd
  simp [pure, Except.pure] at hd
  subst hd
  exact ⟨h1, h2, h3, h4, h5, h6, h7, h8, h9⟩

/-- An absent optional field decodes to `none`. -/
theorem decodeOptString_absent (l : List (String × Json)) (key : String)
    (h : jLookup l key = none) : decodeOptString l key = Except.ok none := by
  simp [decodeOptString, h]

/-- Index-wise description of the flattening transform. -/
theorem flatten_getElem_opt (d : Data) (i : Nat) :
    (flatten d)[i]? = (d.emails[i]?).map (flattenRow d) := by
  simp [flatten]

/-- Membership in the flattening transform's output. -/
theorem mem_flatten (d : Data) (r : Flattened) :
    r ∈ flatten d ↔ ∃ e ∈ d.emails, flattenRow d e = r := by
  simp [flatten]

/-- The writer after any `serialize` call has its header written. -/
theorem Writer.serialize_headerWritten (w : Writer) (f : Flattened) :
    (Writer.serialize w f).headerWritten = true := by
  unfold Writer.serialize
  split <;> rfl

/-- Once the header is out, later rows append one line each. -/
theorem writeRows_lines_of_headerWritten (fs : List Flattened) (w : Writer)
    (h : w.headerWritten = true) :
    (writeRows w fs).lines = w.lines ++ fs.map serializeFlattened := by
  induction fs generalizing w with
  | nil => simp [writeRows]
  | cons f fs ih =>
    have hw : Writer.serialize w f = ⟨true, w.lines ++ [serializeFlattened f]⟩ := by
      unfold Writer.serialize
      simp [h]
    simp [writeRows, List.foldl_cons, hw] at ih ⊢
    rw [ih ⟨true, w.lines ++ [serializeFlattened f]⟩ rfl]
    simp

/-- Every parse error of `parseDomainAt` names the row it arose at. -/
theorem parseDomainAt_error_rowIndex (header row : List String) (i : Nat)
    (e : RunError) (h : parseDomainAt header row i = Except.error e) :
    e.rowIndex = i := by
  unfold parseDomainAt at h
  split at h
  · cases h
    rfl
  · split at h <;> cases h <;> rfl

/-- A successful record: the driver does the inner loop's writes and moves on. -/
theorem driverLoop_step_ok (resp : Nat → Response) (header row : List String)
    (rest : List (List String)) (i : Nat) (w : Writer) (dom : Domain) (hun : Hunter)
    (hp : parseDomainAt header row i = Except.ok dom)
    (hr : decodeOf (resp i) = Except.ok hun) :
    driverLoop resp header (row :: rest) i w
      = driverLoop resp header rest (i + 1) (writeData w hun.data) := by
  cases hresp : resp i with
  | transportError => rw [hresp] at hr; simp [decodeOf] at hr
  | malformedBody => rw [hresp] at hr; simp [decodeOf] at hr
  | body j =>
    rw [hresp] at hr
    simp only [decodeOf] at hr
    simp [driverLoop, hp, hresp, hr, writeData]

/-- A record whose lookup or decode fails: the driver stops with exit code 1
and the file as it stood. -/
theorem driverLoop_step_fail (resp : Nat → Response) (header row : List String)
    (rest : List (List String)) (i : Nat) (w : Writer) (dom : Domain)
    (hp : parseDomainAt header row i = Except.ok dom)
    (hr : exOk (decodeOf (resp i)) = false) :
    ∃ e : RunError, driverLoop resp header (row :: rest) i w = (1, w.lines, some e)
      ∧ e.rowIndex = i := by
  cases hresp : resp i with
  | transportError =>
    exact ⟨RunError.transport i, by simp [driverLoop, hp, hresp], rfl⟩
  | malformedBody =>
    exact ⟨RunError.schema i, by simp [driverLoop, hp, hresp], rfl⟩
  | body j =>
    rw [hresp] at hr
    simp only [decodeOf] at hr
    cases hj : Hunter.fromJson j with
    | error m =>
      exact ⟨RunError.schema i, by simp [driverLoop, hp, hresp, hj], rfl⟩
    | ok hun => rw [hj] at hr; simp [exOk] at hr

/-- A record that fails to parse: the driver stops with exit code 1, the file
as it stood, and an error naming the row. -/
theorem driverLoop_step_parse_fail (resp : Nat → Response) (header row : List String)
    (rest : List (List String)) (i : Nat) (w : Writer)
    (hp : exOk (parseDomainAt header row i) = false) :
    ∃ e : RunError, driverLoop resp header (row :: rest) i w = (1, w.lines, some e)
      ∧ e.rowIndex = i := by
  cases hres : parseDomainAt header row i with
  | error e =>
    exact ⟨e, by simp [driverLoop, hres],
      parseDomainAt_error_rowIndex header row i e hres⟩
  | ok dom => rw [hres] at hp; simp [exOk] at hp

theorem writeDatas_cons (w : Writer) (d : Data) (ds : List Data) :
    writeDatas w (d :: ds) = writeDatas (writeData w d) ds := rfl

theorem datasOf_succ (hs : Nat → Hunter) (i n : Nat) :
    datasOf hs i (n + 1) = (hs i).data :: datasOf hs (i + 1) n := by
  unfold datasOf
  rw [List.range_succ_eq_map]
  simp only [List.map_cons, List.map_map, Nat.add_zero]
  congr 1
  apply List.map_congr_left
  intro a _
  simp only [Function.comp, Nat.succ_eq_add_one]
  rw [show i + (a + 1) = i + 1 + a by omega]

/-- Lookup results with no emails write nothing. -/
theorem writeDatas_of_empty_emails (ds : List Data) (w : Writer)
    (h : ∀ d ∈ ds, d.emails = []) : writeDatas w ds = w := by
  induction ds generalizing w with
  | nil => rfl
  | cons d ds ih =>
    rw [writeDatas_cons]
    have hd : writeData w d = w := by
      simp [writeData, flatten, h d (by simp)]
    rw [hd]
    exact ih w (fun d hd => h d (by simp [hd]))

/-- Running the driver over a prefix of records that all parse and decode
successfully: the loop continues past the prefix with the prefix's rows
written. -/
theorem driverLoop_runs_ok_head (resp : Nat → Response) (header : List String)
    (hs : Nat → Hunter) (pre : List (List String)) :
    ∀ (post : List (List String)) (i : Nat) (w : Writer),
    (∀ j, (hj : j < pre.length) →
        exOk (parseDomainAt header (pre.get ⟨j, hj⟩) (i + j)) = true
        ∧ decodeOf (resp (i + j)) = Except.ok (hs (i + j))) →
    driverLoop resp header (pre ++ post) i w
      = driverLoop resp header post (i + pre.length)
          (writeDatas w (datasOf hs i pre.length)) := by
  induction pre with
  | nil =>
    intro post i w _
    simp [datasOf, writeDatas]
  | cons row pre ih =>
    intro post i w hpre
    have h0 := hpre 0 (by simp)
    obtain ⟨dom, hdom⟩ := (exOk_iff _).mp h0.1
    have hdec : decodeOf (resp i) = Except.ok (hs i) := by
      simpa using h0.2
    rw [List.cons_append,
      driverLoop_step_ok resp header row (pre ++ post) i w dom (hs i)
        (by simpa using hdom) hdec]
    rw [ih post (i + 1) (writeData w (hs i).data) ?_]
    · rw [List.length_cons, datasOf_succ, writeDatas_cons]
      congr 1
      omega
    · intro j hj
      have := hpre (j + 1) (by simpa using Nat.succ_lt_succ hj)
      constructor
      · have h1 := this.1
        rw [show i + (j + 1) = i + 1 + j by omega] at h1
        simpa using h1
      · have h2 := this.2
        rw [show i + (j + 1) = i + 1 + j by omega] at h2
        exact h2

/-- Claim C1: for every LookupResult whose emails sequence has k entries, the
flattening transform produces exactly k FlatRow values, one per EmailEntry,
in the same order as they appear in the emails sequence, with no
deduplication, sorting, or filtering: the i-th output row is built from the
i-th email entry, for every i. -/
theorem flatten_cardinality (d : Data) :
    (flatten d).length = d.emails.length ∧
    ∀ i : Nat, (flatten d)[i]? = (d.emails[i]?).map (fun email =>
      { domain := d.domain, disposable := d.disposable, webmail := d.webmail,
        accept_all := d.accept_all, pattern := d.pattern,
        organization := d.organization, country := d.country, state := d.state,
        value := email.value, type := email.type, confidence := email.confidence,
        first_name := email.first_name, last_name := email.last_name,
        position := email.position, seniority := email.seniority,
        department := email.department, linkedin := email.linkedin,
        twitter := email.twitter, phone_number := email.phone_number }) := by
  constructor
  · simp [flatten]
  · intro i
    rw [flatten_getElem_opt]
    rfl

/-- Claim C2: all FlatRows derived from one LookupResult carry identical
values in the eight domain-level fields, and those values equal the source
LookupResult's field values. -/
theorem field_broadcast (d : Data) (r : Flattened) (hr : r ∈ flatten d) :
    (r.domain = d.domain ∧ r.disposable = d.disposable ∧
     r.webmail = d.webmail ∧ r.accept_all = d.accept_all ∧
     r.pattern = d.pattern ∧ r.organization = d.organization ∧
     r.country = d.country ∧ r.state = d.state) ∧
    ∀ r2 ∈ flatten d,
      r.domain = r2.domain ∧ r.disposable = r2.disposable ∧
      r.webmail = r2.webmail ∧ r.accept_all = r2.accept_all ∧
      r.pattern = r2.pattern ∧ r.organization = r2.organization ∧
      r.country = r2.country ∧ r.state = r2.state := by
  obtain ⟨e, _he, rfl⟩ := (mem_flatten d r).mp hr
  refine ⟨⟨rfl, rfl, rfl, rfl, rfl, rfl, rfl, rfl⟩, ?_⟩
  intro r2 hr2
  obtain ⟨e2, _he2, rfl⟩ := (mem_flatten d r2).mp hr2
  exact ⟨rfl, rfl, rfl, rfl, rfl, rfl, rfl, rfl⟩

/-- Witness for C2 at a concrete LookupResult and row. -/
theorem field_broadcast_witness :
    (((flattenRow sampleData sampleEmail).domain = sampleData.domain ∧
      (flattenRow sampleData sampleEmail).disposable = sampleData.disposable ∧
      (flattenRow sampleData sampleEmail).webmail = sampleData.webmail ∧
      (flattenRow sampleData sampleEmail).accept_all = sampleData.accept_all ∧
      (flattenRow sampleData sampleEmail).pattern = sampleData.pattern ∧
      (flattenRow sampleData sampleEmail).organization = sampleData.organization ∧
      (flattenRow sampleData sampleEmail).country = sampleData.country ∧
      (flattenRow sampleData sampleEmail).state = sampleData.state) ∧
     ∀ r2 ∈ flatten sampleData,
      (flattenRow sampleData sampleEmail).domain = r2.domain ∧
      (flattenRow sampleData sampleEmail).disposable = r2.disposable ∧
      (flattenRow sampleData sampleEmail).webmail = r2.webmail ∧
      (flattenRow sampleData sampleEmail).accept_all = r2.accept_all ∧
      (flattenRow sampleData sampleEmail).pattern = r2.pattern ∧
      (flattenRow sampleData sampleEmail).organization = r2.organization ∧
      (flattenRow sampleData sampleEmail).country = r2.country ∧
      (flattenRow sampleData sampleEmail).state = r2.state) :=
  field_broadcast sampleData (flattenRow sampleData sampleEmail) (by decide)

/-- Claim C3: the sources of every email entry are dropped by the flattening
transform — replacing them arbitrarily leaves the output unchanged, so no
field of any Source record reaches any FlatRow. -/
theorem source_exclusion (d : Data) (srcs : Email → List Source) :
    flatten { d with emails := d.emails.map (fun e => { e with sources := srcs e }) }
      = flatten d := by
  simp only [flatten, List.map_map]
  apply List.map_congr_left
  intro e _
  rfl

/-- Claim C7: with the KEY environment variable unset, the process prints the
usage hint to stderr and exits with code 1; the input and output files are
never opened and nothing is written. -/
theorem missing_key_exits_before_io (header : List String)
    (rows : List (List String)) (resp : Nat → Response) :
    get_api_key none = KeyResult.exitedUsage usageLines ∧
    mainRun none header rows resp = MainOutcome.exited 1 false false [] none :=
  ⟨rfl, rfl⟩

/-- Claim C10: with KEY set to a non-UTF-8 value, `get_api_key` panics (the
`unwrap` on `to_str`), rather than returning a credential or taking the
usage-hint exit; the whole run ends in a panic. -/
theorem non_utf8_key_panics (header : List String)
    (rows : List (List String)) (resp : Nat → Response) :
    get_api_key (some OsVal.nonUtf8) = KeyResult.panicked ∧
    (∀ s : String, get_api_key (some OsVal.nonUtf8) ≠ KeyResult.ok s) ∧
    (∀ ls : List String, get_api_key (some OsVal.nonUtf8) ≠ KeyResult.exitedUsage ls) ∧
    mainRun (some OsVal.nonUtf8) header rows resp = MainOutcome.panicked := by
  refine ⟨rfl, ?_, ?_, rfl⟩
  · intro s h
    simp [get_api_key, OsVal.to_str] at h
  · intro ls h
    simp [get_api_key, OsVal.to_str] at h

/-- A successfully decoded optional field whose key is absent is `none`. -/
theorem decodeOptString_ok_absent {l : List (String × Json)} {k : String}
    {o : Option String} (hpr : decodeOptString l k = Except.ok o)
    (habs : jLookup l k = none) : o = none := by
  rw [decodeOptString_absent l k habs] at hpr
  simpa using hpr.symm

/-- Claim C4: an absent optional field in the input JSON decodes to an absent
(`none`, never empty-string) value, the flattening transform carries every
optional field through unchanged, and a `none` field serializes as an empty
cell at its column of the output record. -/
theorem optional_field_fidelity
    (le ld : List (String × Json)) (e : Email) (d : Data)
    (he : Email.fromJson (Json.obj le) = Except.ok e)
    (hd : Data.fromJson (Json.obj ld) = Except.ok d) :
    ((jLookup le "first_name" = none → e.first_name = none) ∧
     (jLookup le "last_name" = none → e.last_name = none) ∧
     (jLookup le "position" = none → e.position = none) ∧
     (jLookup le "seniority" = none → e.seniority = none) ∧
     (jLookup le "department" = none → e.department = none) ∧
     (jLookup le "linkedin" = none → e.linkedin = none) ∧
     (jLookup le "twitter" = none → e.twitter = none) ∧
     (jLookup le "phone_number" = none → e.phone_number = none)) ∧
    ((jLookup ld "pattern" = none → d.pattern = none) ∧
     (jLookup ld "organization" = none → d.organization = none) ∧
     (jLookup ld "country" = none → d.country = none) ∧
     (jLookup ld "state" = none → d.state = none)) ∧
    (∀ (dd : Data) (ee : Email),
      (flattenRow dd ee).pattern = dd.pattern ∧
      (flattenRow dd ee).organization = dd.organization ∧
      (flattenRow dd ee).country = dd.country ∧
      (flattenRow dd ee).state = dd.state ∧
      (flattenRow dd ee).first_name = ee.first_name ∧
      (flattenRow dd ee).last_name = ee.last_name ∧
      (flattenRow dd ee).position = ee.position ∧
      (flattenRow dd ee).seniority = ee.seniority ∧
      (flattenRow dd ee).department = ee.department ∧
      (flattenRow dd ee).linkedin = ee.linkedin ∧
      (flattenRow dd ee).twitter = ee.twitter ∧
      (flattenRow dd ee).phone_number = ee.phone_number) ∧
    (∀ r : Flattened,
      (r.pattern = none → (serializeFlattened r)[4]? = some "") ∧
      (r.organization = none → (serializeFlattened r)[5]? = some "") ∧
      (r.country = none → (serializeFlattened r)[6]? = some "") ∧
      (r.state = none → (serializeFlattened r)[7]? = some "") ∧
      (r.first_name = none → (serializeFlattened r)[11]? = some "") ∧
      (r.last_name = none → (serializeFlattened r)[12]? = some "") ∧
      (r.position = none → (serializeFlattened r)[13]? = some "") ∧
      (r.seniority = none → (serializeFlattened r)[14]? = some "") ∧
      (r.department = none → (serializeFlattened r)[15]? = some "") ∧
      (r.linkedin = none → (serializeFlattened r)[16]? = some "") ∧
      (r.twitter = none → (serializeFlattened r)[17]? = some "") ∧
      (r.phone_number = none → (serializeFlattened r)[18]? = some "")) := by
  obtain ⟨-, -, -, -, p5, p6, p7, p8, p9, p10, p11, p12⟩ :=
    emailFromJson_obj_ok le e he
  obtain ⟨-, -, -, -, q5, q6, q7, q8, -⟩ := dataFromJson_obj_ok ld d hd
  refine ⟨⟨fun h => decodeOptString_ok_absent p5 h,
          fun h => decodeOptString_ok_absent p6 h,
          fun h => decodeOptString_ok_absent p7 h,
          fun h => decodeOptString_ok_absent p8 h,
          fun h => decodeOptString_ok_absent p9 h,
          fun h => decodeOptString_ok_absent p10 h,
          fun h => decodeOptString_ok_absent p11 h,
          fun h => decodeOptString_ok_absent p12 h⟩,
        ⟨fun h => decodeOptString_ok_absent q5 h,
          fun h => decodeOptString_ok_absent q6 h,
          fun h => decodeOptString_ok_absent q7 h,
          fun h => decodeOptString_ok_absent q8 h⟩,
        fun dd ee =>
          ⟨rfl, rfl, rfl, rfl, rfl, rfl, rfl, rfl, rfl, rfl, rfl, rfl⟩,
        fun r => ?_⟩
  refine ⟨?_, ?_, ?_, ?_, ?_, ?_, ?_, ?_, ?_, ?_, ?_, ?_⟩ <;>
    intro h <;> simp [serializeFlattened, h, optCell]

/-- Witness for C4 at a concrete email and lookup-result JSON object, each
missing every optional field. -/
theorem optional_field_fidelity_witness :
    ((jLookup bareEmailFields "first_name" = none → bareEmail.first_name = none) ∧
     (jLookup bareEmailFields "last_name" = none → bareEmail.last_name = none) ∧
     (jLookup bareEmailFields "position" = none → bareEmail.position = none) ∧
     (jLookup bareEmailFields "seniority" = none → bareEmail.seniority = none) ∧
     (jLookup bareEmailFields "department" = none → bareEmail.department = none) ∧
     (jLookup bareEmailFields "linkedin" = none → bareEmail.linkedin = none) ∧
     (jLookup bareEmailFields "twitter" = none → bareEmail.twitter = none) ∧
     (jLookup bareEmailFields "phone_number" = none → bareEmail.phone_number = none)) ∧
    ((jLookup bareDataFields "pattern" = none → bareData.pattern = none) ∧
     (jLookup bareDataFields "organization" = none → bareData.organization = none) ∧
     (jLookup bareDataFields "country" = none → bareData.country = none) ∧
     (jLookup bareDataFields "state" = none → bareData.state = none)) ∧
    (∀ (dd : Data) (ee : Email),
      (flattenRow dd ee).pattern = dd.pattern ∧
      (flattenRow dd ee).organization = dd.organization ∧
      (flattenRow dd ee).country = dd.country ∧
      (flattenRow dd ee).state = dd.state ∧
      (flattenRow dd ee).first_name = ee.first_name ∧
      (flattenRow dd ee).last_name = ee.last_name ∧
      (flattenRow dd ee).position = ee.position ∧
      (flattenRow dd ee).seniority = ee.seniority ∧
      (flattenRow dd ee).department = ee.department ∧
      (flattenRow dd ee).linkedin = ee.linkedin ∧
      (flattenRow dd ee).twitter = ee.twitter ∧
      (flattenRow dd ee).phone_number = ee.phone_number) ∧
    (∀ r : Flattened,
      (r.pattern = none → (serializeFlattened r)[4]? = some "") ∧
      (r.organization = none → (serializeFlattened r)[5]? = some "") ∧
      (r.country = none → (serializeFlattened r)[6]? = some "") ∧
      (r.state = none → (serializeFlattened r)[7]? = some "") ∧
      (r.first_name = none → (serializeFlattened r)[11]? = some "") ∧
      (r.last_name = none → (serializeFlattened r)[12]? = some "") ∧
      (r.position = none → (serializeFlattened r)[13]? = some "") ∧
      (r.seniority = none → (serializeFlattened r)[14]? = some "") ∧
      (r.department = none → (serializeFlattened r)[15]? = some "") ∧
      (r.linkedin = none → (serializeFlattened r)[16]? = some "") ∧
      (r.twitter = none → (serializeFlattened r)[17]? = some "") ∧
      (r.phone_number = none → (serializeFlattened r)[18]? = some "")) :=
  optional_field_fidelity bareEmailFields bareDataFields bareEmail bareData
    (by rfl) (by rfl)

/-- Claim C6: whenever any FlatRow is written, the header row is written
exactly once, before the first data row, and always lists the 19 columns in
the fixed order, regardless of which optional fields are populated. -/
theorem header_once_fixed_order (fs : List Flattened) (hne : fs ≠ []) :
    (writeRows Writer.init fs).lines
      = flattenedHeader :: fs.map serializeFlattened ∧
    flattenedHeader
      = ["domain", "disposable", "webmail", "accept_all", "pattern",
         "organization", "country", "state", "value", "type", "confidence",
         "first_name", "last_name", "position", "seniority", "department",
         "linkedin", "twitter", "phone_number"] ∧
    flattenedHeader.length = 19 ∧
    (∀ f : Flattened, (serializeFlattened f).length = 19) := by
  refine ⟨?_, rfl, rfl, fun f => rfl⟩
  obtain ⟨f, fs', rfl⟩ := List.exists_cons_of_ne_nil hne
  rw [writeRows, List.foldl_cons]
  have h1 : Writer.serialize Writer.init f
      = ⟨true, [flattenedHeader, serializeFlattened f]⟩ := rfl
  rw [h1]
  have h2 := writeRows_lines_of_headerWritten fs'
    ⟨true, [flattenedHeader, serializeFlattened f]⟩ rfl
  rw [writeRows] at h2
  rw [h2]
  simp

/-- Witness for C6 at a concrete one-row write. -/
theorem header_once_fixed_order_witness :
    (writeRows Writer.init [flattenRow sampleData sampleEmail]).lines
      = flattenedHeader
          :: [flattenRow sampleData sampleEmail].map serializeFlattened ∧
    flattenedHeader
      = ["domain", "disposable", "webmail", "accept_all", "pattern",
         "organization", "country", "state", "value", "type", "confidence",
         "first_name", "last_name", "position", "seniority", "department",
         "linkedin", "twitter", "phone_number"] ∧
    flattenedHeader.length = 19 ∧
    (∀ f : Flattened, (serializeFlattened f).length = 19) :=
  header_once_fixed_order [flattenRow sampleData sampleEmail] (by decide)

/-- With a good credential, the run is the driver loop started at record 0
on a fresh writer. -/
theorem mainRun_ok_key (k : String) (header : List String)
    (rows : List (List String)) (resp : Nat → Response) :
    mainRun (some (OsVal.utf8 k)) header rows resp
      = MainOutcome.exited (driverLoop resp header rows 0 Writer.init).1 true true
          (driverLoop resp header rows 0 Writer.init).2.1
          (driverLoop resp header rows 0 Writer.init).2.2 := rfl

/-- Claim C5: when the lookup of some record fails with a transport error or
a body that does not decode as a LookupResult — all earlier records having
parsed, looked up and flattened normally — the run exits with code 1 at that
record, an error is reported, and the output file holds exactly the lines
written for the earlier records: nothing for the failing record or any later
one. -/
theorem abort_on_lookup_failure (k : String) (header : List String)
    (pre post : List (List String)) (badRow : List String)
    (resp : Nat → Response) (hs : Nat → Hunter)
    (hpre : ∀ j, (hj : j < pre.length) →
        exOk (parseDomainAt header (pre.get ⟨j, hj⟩) j) = true
        ∧ decodeOf (resp j) = Except.ok (hs j))
    (hbadParse : exOk (parseDomainAt header badRow pre.length) = true)
    (hbad : exOk (decodeOf (resp pre.length)) = false) :
    ∃ e : RunError,
      mainRun (some (OsVal.utf8 k)) header (pre ++ badRow :: post) resp
        = MainOutcome.exited 1 true true
            (writeDatas Writer.init (datasOf hs 0 pre.length)).lines (some e)
        ∧ e.rowIndex = pre.length := by
  have hpre0 : ∀ j, (hj : j < pre.length) →
      exOk (parseDomainAt header (pre.get ⟨j, hj⟩) (0 + j)) = true
      ∧ decodeOf (resp (0 + j)) = Except.ok (hs (0 + j)) := by
    intro j hj
    simpa using hpre j hj
  have hdrv := driverLoop_runs_ok_head resp header hs pre (badRow :: post) 0
    Writer.init hpre0
  obtain ⟨dom, hdom⟩ := (exOk_iff _).mp hbadParse
  obtain ⟨e, he, hrow⟩ := driverLoop_step_fail resp header badRow post
    (0 + pre.length) (writeDatas Writer.init (datasOf hs 0 pre.length)) dom
    (by simpa using hdom) (by simpa using hbad)
  refine ⟨e, ?_, by simpa using hrow⟩
  rw [mainRun_ok_key, hdrv, he]

/-- Witness for C5: the first record's lookup dies on a transport error; the
run exits 1 having written nothing. -/
theorem abort_on_lookup_failure_witness :
    ∃ e : RunError,
      mainRun (some (OsVal.utf8 "secret")) ["name", "domain"]
        [["Acme", "acme.com"]] (fun _ => Response.transportError)
        = MainOutcome.exited 1 true true [] (some e)
        ∧ e.rowIndex = 0 :=
  abort_on_lookup_failure "secret" ["name", "domain"] [] []
    ["Acme", "acme.com"] (fun _ => Response.transportError)
    (fun _ => bareHunter)
    (fun j hj => absurd hj (Nat.not_lt_zero j)) (by rfl) (by rfl)

/-- Claim C8: when an input row is malformed (wrong column count, or missing
the name or domain column) — all earlier rows having been processed
normally — the run fails at that row with an error identifying it, exits
with a non-zero code, and processes no further input rows: the output holds
exactly the earlier records' lines. -/
theorem malformed_row_aborts (k : String) (header : List String)
    (pre post : List (List String)) (badRow : List String)
    (resp : Nat → Response) (hs : Nat → Hunter)
    (hpre : ∀ j, (hj : j < pre.length) →
        exOk (parseDomainAt header (pre.get ⟨j, hj⟩) j) = true
        ∧ decodeOf (resp j) = Except.ok (hs j))
    (hbad : exOk (parseDomainAt header badRow pre.length) = false) :
    ∃ e : RunError,
      mainRun (some (OsVal.utf8 k)) header (pre ++ badRow :: post) resp
        = MainOutcome.exited 1 true true
            (writeDatas Writer.init (datasOf hs 0 pre.length)).lines (some e)
        ∧ e.rowIndex = pre.length := by
  have hpre0 : ∀ j, (hj : j < pre.length) →
      exOk (parseDomainAt header (pre.get ⟨j, hj⟩) (0 + j)) = true
      ∧ decodeOf (resp (0 + j)) = Except.ok (hs (0 + j)) := by
    intro j hj
    simpa using hpre j hj
  have hdrv := driverLoop_runs_ok_head resp header hs pre (badRow :: post) 0
    Writer.init hpre0
  obtain ⟨e, he, hrow⟩ := driverLoop_step_parse_fail resp header badRow post
    (0 + pre.length) (writeDatas Writer.init (datasOf hs 0 pre.length))
    (by simpa using hbad)
  refine ⟨e, ?_, by simpa using hrow⟩
  rw [mainRun_ok_key, hdrv, he]

/-- Witness for C8: the header has no domain column, so the first row fails
to parse; the run exits 1 with an error naming row 0 and an empty output. -/
theorem malformed_row_aborts_witness :
    ∃ e : RunError,
      mainRun (some (OsVal.utf8 "secret")) ["name", "company"]
        [["Acme", "acme.com"]] (fun _ => Response.transportError)
        = MainOutcome.exited 1 true true [] (some e)
        ∧ e.rowIndex = 0 :=
  malformed_row_aborts "secret" ["name", "company"] [] []
    ["Acme", "acme.com"] (fun _ => Response.transportError)
    (fun _ => bareHunter)
    (fun j hj => absurd hj (Nat.not_lt_zero j)) (by rfl)

/-- Claim C9: a run in which every record parses and decodes but no FlatRow
is ever written (every LookupResult has an empty emails sequence — which
includes the case of an input with no data rows) exits with code 0 and
leaves the output file empty: no header row and no data rows. -/
theorem no_rows_empty_output (k : String) (header : List String)
    (rows : List (List String)) (resp : Nat → Response) (hs : Nat → Hunter)
    (hall : ∀ j, (hj : j < rows.length) →
        exOk (parseDomainAt header (rows.get ⟨j, hj⟩) j) = true
        ∧ decodeOf (resp j) = Except.ok (hs j))
    (hempty : ∀ j, j < rows.length → (hs j).data.emails = []) :
    mainRun (some (OsVal.utf8 k)) header rows resp
      = MainOutcome.exited 0 true true [] none := by
  have hall0 : ∀ j, (hj : j < rows.length) →
      exOk (parseDomainAt header (rows.get ⟨j, hj⟩) (0 + j)) = true
      ∧ decodeOf (resp (0 + j)) = Except.ok (hs (0 + j)) := by
    intro j hj
    simpa using hall j hj
  have hdrv := driverLoop_runs_ok_head resp header hs rows [] 0 Writer.init hall0
  rw [List.append_nil] at hdrv
  have hw : writeDatas Writer.init (datasOf hs 0 rows.length) = Writer.init := by
    apply writeDatas_of_empty_emails
    intro d hd
    unfold datasOf at hd
    rw [List.mem_map] at hd
    obtain ⟨j, hj, hde⟩ := hd
    rw [List.mem_range] at hj
    rw [← hde]
    simpa using hempty j hj
  rw [mainRun_ok_key, hdrv, hw]
  rfl

/-- Witness for C9: one record whose lookup result has no emails; the run
exits 0 and the output file is empty. -/
theorem no_rows_empty_output_witness :
    mainRun (some (OsVal.utf8 "secret")) ["name", "domain"]
      [["Acme", "acme.com"]] (fun _ => Response.body emptyHunterJson)
      = MainOutcome.exited 0 true true [] none :=
  no_rows_empty_output "secret" ["name", "domain"] [["Acme", "acme.com"]]
    (fun _ => Response.body emptyHunterJson) (fun _ => bareHunter)
    (fun j hj => by
      have hj1 : j = 0 := Nat.lt_one_iff.mp (by simpa using hj)
      subst hj1
      exact ⟨by rfl, by rfl⟩)
    (fun _ _ => rfl)

end HunterSpec
